import Mathlib

/-!
Verification of `src/src/prediction/vae_base.py` (`BaseVariationalAutoencoder`).

Tensors are modelled as flat lists of scalars over a field `α` (the reductions
`tf.reduce_mean` / `tf.reduce_sum` flatten their argument, so only the element
multiset matters for the losses); the decoder output additionally carries a
shape, which the `call` facade inspects. The exponential is passed as an
explicit function parameter `expf` so that the definitions remain executable;
theorems that need analytic facts about the exponential instantiate it with
`Real.exp`. The per-call sampling noise `epsilon` is an explicit argument.
-/

namespace VaeBase

/-- A shaped tensor: a shape (list of dimension sizes) and flattened data. -/
structure Tensor (α : Type) where
  shape : List Nat
  data : List α

variable {α : Type} [Field α]

/-- `tf.reduce_sum`: sum of all elements. -/
def reduce_sum (t : List α) : α := t.sum

/-- `tf.reduce_mean`: sum of all elements divided by the element count. -/
def reduce_mean (t : List α) : α := t.sum / (t.length : α)

/-- `tf.math.squared_difference(Y, reconstruction)`: elementwise `(y - r)^2`
(line 74 / line 96 of `vae_base.py`). -/
def squared_difference (y r : List α) : List α :=
  List.zipWith (fun a b => (a - b) ^ 2) y r

/-- The elementwise KL tensor `-0.5 * (1 + z_log_var - square z_mean - exp z_log_var)`
(line 76 / line 98 of `vae_base.py`). -/
def kl_tensor (expf : α → α) (z_mean z_log_var : List α) : List α :=
  List.zipWith (fun m v => -(1 / 2 : α) * (1 + v - m ^ 2 - expf v)) z_mean z_log_var

/-- Encoder contract (spec section 3): the encoder network deterministically
produces the latent mean and log-variance from the input batch; the sampled
latent is derived from them by reparameterization with fresh noise. -/
structure Encoder (α : Type) where
  meanNet : List α → List α
  logVarNet : List α → List α

/-- Reparameterization `z = z_mean + exp(0.5 * z_log_var) * epsilon`. -/
def reparameterize (expf : α → α) : List α → List α → List α → List α
  | m :: ms, v :: vs, e :: es =>
      (m + expf ((1 / 2 : α) * v) * e) :: reparameterize expf ms vs es
  | _, _, _ => []

/-- One encoder invocation `self.encoder(X)`, returning `(z_mean, z_log_var, z)`;
the noise `eps` is consumed only by the sampled component `z`. -/
def Encoder.run (expf : α → α) (enc : Encoder α) (X eps : List α) :
    List α × List α × List α :=
  (enc.meanNet X, enc.logVarNet X,
    reparameterize expf (enc.meanNet X) (enc.logVarNet X) eps)

/-- The loss computation of `train_step` (lines 72-78): decode the sampled `z`,
mean-reduce the squared error and the KL tensor, and combine with the
reconstruction weight. Returns `(total_loss, reconstruction_loss, kl_loss)`. -/
def train_step_losses (expf : α → α) (wt : α) (enc : Encoder α)
    (dec : List α → Tensor α) (X Y eps : List α) : α × α × α :=
  let out := enc.run expf X eps
  let reconstruction := dec out.2.2
  let err := squared_difference Y reconstruction.data
  let reconstruction_loss := reduce_mean err
  let kl_loss := reduce_mean (kl_tensor expf out.1 out.2.1)
  let total_loss := wt * reconstruction_loss + kl_loss
  (total_loss, reconstruction_loss, kl_loss)

/-- The loss computation of `test_step` (lines 94-100): identical to the
training losses except that both reductions are sums. -/
def test_step_losses (expf : α → α) (wt : α) (enc : Encoder α)
    (dec : List α → Tensor α) (X Y eps : List α) : α × α × α :=
  let out := enc.run expf X eps
  let reconstruction := dec out.2.2
  let err := squared_difference Y reconstruction.data
  let reconstruction_loss := reduce_sum err
  let kl_loss := reduce_sum (kl_tensor expf out.1 out.2.1)
  let total_loss := wt * reconstruction_loss + kl_loss
  (total_loss, reconstruction_loss, kl_loss)

/-- Per the spec (section 4.2): both losses of a step are reduced with one
configurable reduction mode `red` (mean for training, sum for evaluation). -/
def spec_step_losses (expf : α → α) (red : List α → α) (wt : α) (enc : Encoder α)
    (dec : List α → Tensor α) (X Y eps : List α) : α × α × α :=
  let out := enc.run expf X eps
  let reconstruction := dec out.2.2
  let reconstruction_loss := red (squared_difference Y reconstruction.data)
  let kl_loss := red (kl_tensor expf out.1 out.2.1)
  (wt * reconstruction_loss + kl_loss, reconstruction_loss, kl_loss)

/-- Keras `Mean` metric: a running-mean accumulator holding the sum of all
updates and their count; `update_state v` adds `v`, `result` is the mean. -/
structure MeanTracker (α : Type) where
  total : α
  count : Nat

/-- `Mean.update_state`. -/
def MeanTracker.update (t : MeanTracker α) (v : α) : MeanTracker α :=
  ⟨t.total + v, t.count + 1⟩

/-- `Mean.result`: the running mean over all updates since the last reset. -/
def MeanTracker.result (t : MeanTracker α) : α := t.total / (t.count : α)

/-- The model state of `BaseVariationalAutoencoder`: the configuration fields,
the three loss trackers, and the `encoder` / `decoder` attributes, which are
`None` until a concrete subclass assigns them. -/
structure BaseVariationalAutoencoder (α : Type) where
  encode_len : Nat
  decode_len : Nat
  feat_dim : Nat
  latent_dim : Nat
  reconstruction_wt : α
  total_loss_tracker : MeanTracker α
  reconstruction_loss_tracker : MeanTracker α
  kl_loss_tracker : MeanTracker α
  encoder : Option (Encoder α)
  decoder : Option (List α → Tensor α)

/-- `__init__` (lines 15-32): store the configuration, create three fresh
`Mean` trackers, and set `encoder` and `decoder` to `None`. -/
def BaseVariationalAutoencoder.mk0 (encode_len decode_len feat_dim latent_dim : Nat)
    (reconstruction_wt : α) : BaseVariationalAutoencoder α :=
  { encode_len := encode_len, decode_len := decode_len, feat_dim := feat_dim,
    latent_dim := latent_dim, reconstruction_wt := reconstruction_wt,
    total_loss_tracker := ⟨0, 0⟩, reconstruction_loss_tracker := ⟨0, 0⟩,
    kl_loss_tracker := ⟨0, 0⟩, encoder := none, decoder := none }

/-- The `TypeError` Python raises when `self.encoder` or `self.decoder` is
still `None` and gets called. -/
def noneCallableError : String := "TypeError: NoneType object is not callable"

/-- `call` (lines 35-40): encode, keep only `z_mean`, decode it, and reshape a
rank-1 decoded tensor to `(1, -1)`. -/
def BaseVariationalAutoencoder.call (expf : α → α)
    (M : BaseVariationalAutoencoder α) (X eps : List α) : Except String (Tensor α) :=
  match M.encoder with
  | none => .error noneCallableError
  | some enc =>
    match M.decoder with
    | none => .error noneCallableError
    | some dec =>
      let z_mean := (enc.run expf X eps).1
      let x_decoded := dec z_mean
      if x_decoded.shape.length = 1 then
        .ok ⟨[1, x_decoded.data.length], x_decoded.data⟩
      else
        .ok x_decoded

/-- `train_step` (lines 69-89). The gradient computation and
`optimizer.apply_gradients` act on the opaque network internals; they are
modelled by the abstract parameter-update function `optStep`, applied to the
encoder and decoder given the total loss. -/
def BaseVariationalAutoencoder.train_step (expf : α → α)
    (optStep : α → Encoder α → (List α → Tensor α) → Encoder α × (List α → Tensor α))
    (M : BaseVariationalAutoencoder α) (data : List α × List α) (eps : List α) :
    Except String (BaseVariationalAutoencoder α × (α × α × α)) :=
  match M.encoder with
  | none => .error noneCallableError
  | some enc =>
    match M.decoder with
    | none => .error noneCallableError
    | some dec =>
      let losses := train_step_losses expf M.reconstruction_wt enc dec data.1 data.2 eps
      let upd := optStep losses.1 enc dec
      let M' := { M with
        encoder := some upd.1, decoder := some upd.2,
        total_loss_tracker := M.total_loss_tracker.update losses.1,
        reconstruction_loss_tracker := M.reconstruction_loss_tracker.update losses.2.1,
        kl_loss_tracker := M.kl_loss_tracker.update losses.2.2 }
      .ok (M', (M'.total_loss_tracker.result,
                M'.reconstruction_loss_tracker.result,
                M'.kl_loss_tracker.result))

/-- `test_step` (lines 92-109): compute the sum-reduced losses, update the
three trackers, and return their results; no parameter update. -/
def BaseVariationalAutoencoder.test_step (expf : α → α)
    (M : BaseVariationalAutoencoder α) (data : List α × List α) (eps : List α) :
    Except String (BaseVariationalAutoencoder α × (α × α × α)) :=
  match M.encoder with
  | none => .error noneCallableError
  | some enc =>
    match M.decoder with
    | none => .error noneCallableError
    | some dec =>
      let losses := test_step_losses expf M.reconstruction_wt enc dec data.1 data.2 eps
      let M' := { M with
        total_loss_tracker := M.total_loss_tracker.update losses.1,
        reconstruction_loss_tracker := M.reconstruction_loss_tracker.update losses.2.1,
        kl_loss_tracker := M.kl_loss_tracker.update losses.2.2 }
      .ok (M', (M'.total_loss_tracker.result,
                M'.reconstruction_loss_tracker.result,
                M'.kl_loss_tracker.result))

/-- Python ABC instantiation semantics for the `@abstractmethod` declarations
`_get_encoder` / `_get_decoder` (lines 54-61) on the class
`BaseVariationalAutoencoder(Model, ABC)` (line 14): instantiating a concrete
subclass that leaves either abstract method unimplemented raises `TypeError`
before `__init__` runs, so no model object is produced. -/
def construct (implements_get_encoder implements_get_decoder : Bool)
    (encode_len decode_len feat_dim latent_dim : Nat) (reconstruction_wt : α) :
    Except String (BaseVariationalAutoencoder α) :=
  if implements_get_encoder && implements_get_decoder then
    .ok (BaseVariationalAutoencoder.mk0 encode_len decode_len feat_dim latent_dim
          reconstruction_wt)
  else
    .error "TypeError: cannot instantiate abstract class"

/-! ### Concrete instances used by the witnesses -/

/-- A concrete encoder over `ℚ` whose networks send every input to `[0]`. -/
def wEnc : Encoder ℚ := { meanNet := fun _ => [0], logVarNet := fun _ => [0] }

/-- A concrete decoder over `ℚ` returning its latent input as a rank-1 tensor. -/
def wDec : List ℚ → Tensor ℚ := fun z => { shape := [z.length], data := z }

/-- A concrete model over `ℚ` with the encoder and decoder attributes assigned. -/
def wM : BaseVariationalAutoencoder ℚ :=
  { BaseVariationalAutoencoder.mk0 1 1 1 1 5 with
    encoder := some wEnc, decoder := some wDec }

/-- The identity update: an optimizer step that leaves the networks unchanged. -/
def wOpt : ℚ → Encoder ℚ → (List ℚ → Tensor ℚ) → Encoder ℚ × (List ℚ → Tensor ℚ) :=
  fun _ e d => (e, d)

/-! ### Theorems -/

/-- C1: For every input batch (X, Y), the training step reduces both the
reconstruction loss (elementwise squared difference between Y and the
reconstruction) and the KL loss to scalars using mean reduction, while the
evaluation step reduces both using sum reduction; within one step both losses
use the same reduction mode. -/
theorem train_mean_test_sum_reduction (expf : α → α) (wt : α) (enc : Encoder α)
    (dec : List α → Tensor α) (X Y eps : List α) :
    train_step_losses expf wt enc dec X Y eps
      = spec_step_losses expf reduce_mean wt enc dec X Y eps ∧
    test_step_losses expf wt enc dec X Y eps
      = spec_step_losses expf reduce_sum wt enc dec X Y eps :=
  ⟨rfl, rfl⟩

/-- C2: In every training and evaluation step, the total loss equals
`reconstruction_wt` times the reconstruction loss plus the KL loss; in
particular, when the reconstruction weight is 0, the total loss equals the KL
loss exactly. -/
theorem total_loss_combination (expf : α → α) (wt : α) (enc : Encoder α)
    (dec : List α → Tensor α) (X Y eps : List α) :
    ((train_step_losses expf wt enc dec X Y eps).1
      = wt * (train_step_losses expf wt enc dec X Y eps).2.1
        + (train_step_losses expf wt enc dec X Y eps).2.2) ∧
    ((test_step_losses expf wt enc dec X Y eps).1
      = wt * (test_step_losses expf wt enc dec X Y eps).2.1
        + (test_step_losses expf wt enc dec X Y eps).2.2) ∧
    ((train_step_losses expf 0 enc dec X Y eps).1
      = (train_step_losses expf 0 enc dec X Y eps).2.2) ∧
    ((test_step_losses expf 0 enc dec X Y eps).1
      = (test_step_losses expf 0 enc dec X Y eps).2.2) := by
  refine ⟨rfl, rfl, ?_, ?_⟩ <;>
    simp [train_step_losses, test_step_losses]

/-- C3: In both the training and evaluation steps, the KL loss is computed
from the encoder outputs `z_mean` and `z_log_var` by the closed form
`-0.5 * reduce(1 + z_log_var - z_mean^2 - exp z_log_var)`, where `reduce` is
mean in the training step and sum in the evaluation step, and the sampled
latent `z` (hence the sampling noise) does not enter the KL term. -/
theorem kl_closed_form_ignores_sample (expf : α → α) (wt : α) (enc : Encoder α)
    (dec : List α → Tensor α) (X Y eps eps' : List α) :
    ((train_step_losses expf wt enc dec X Y eps).2.2
      = reduce_mean (kl_tensor expf (enc.meanNet X) (enc.logVarNet X))) ∧
    ((test_step_losses expf wt enc dec X Y eps).2.2
      = reduce_sum (kl_tensor expf (enc.meanNet X) (enc.logVarNet X))) ∧
    ((train_step_losses expf wt enc dec X Y eps).2.2
      = (train_step_losses expf wt enc dec X Y eps').2.2) ∧
    ((test_step_losses expf wt enc dec X Y eps).2.2
      = (test_step_losses expf wt enc dec X Y eps').2.2) :=
  ⟨rfl, rfl, rfl, rfl⟩

/-- C4: For every input batch (X, Y), the evaluation step `test_step` leaves
every trainable parameter of the encoder and decoder unchanged (the encoder
and decoder attributes are identical before and after), and also leaves the
configuration fields unchanged; it mutates only the three loss trackers. -/
theorem test_step_frame (expf : α → α) (M M' : BaseVariationalAutoencoder α)
    (data : List α × List α) (eps : List α) (out : α × α × α)
    (h : M.test_step expf data eps = .ok (M', out)) :
    M'.encoder = M.encoder ∧ M'.decoder = M.decoder ∧
    M'.encode_len = M.encode_len ∧ M'.decode_len = M.decode_len ∧
    M'.feat_dim = M.feat_dim ∧ M'.latent_dim = M.latent_dim ∧
    M'.reconstruction_wt = M.reconstruction_wt := by
  rcases hE : M.encoder with _ | enc
  · rw [BaseVariationalAutoencoder.test_step, hE] at h
    exact absurd h (by simp)
  · rcases hD : M.decoder with _ | dec
    · rw [BaseVariationalAutoencoder.test_step, hE, hD] at h
      exact absurd h (by simp)
    · rw [BaseVariationalAutoencoder.test_step, hE, hD] at h
      simp only [Except.ok.injEq, Prod.mk.injEq] at h
      obtain ⟨h1, _⟩ := h
      subst h1
      exact ⟨rfl, rfl, rfl, rfl, rfl, rfl, rfl⟩

/-- The model state after one `test_step` of `wM` on the zero batch: only the
three trackers have changed. -/
def wM2 : BaseVariationalAutoencoder ℚ :=
  { wM with total_loss_tracker := ⟨-(1 / 2), 1⟩,
            reconstruction_loss_tracker := ⟨0, 1⟩,
            kl_loss_tracker := ⟨-(1 / 2), 1⟩ }

/-- The evaluation of one concrete `test_step` of `wM` on the zero batch. -/
theorem wM_test_step_eval :
    wM.test_step (fun v => v) ([0], [0]) [0] = .ok (wM2, (-(1 / 2), 0, -(1 / 2))) := by
  simp only [wM, wEnc, wDec, wM2, BaseVariationalAutoencoder.mk0,
    BaseVariationalAutoencoder.test_step, test_step_losses, Encoder.run,
    reparameterize, squared_difference, kl_tensor, reduce_sum,
    MeanTracker.update, MeanTracker.result, List.zipWith, List.sum_cons,
    List.sum_nil, Except.ok.injEq, Prod.mk.injEq]
  norm_num

/-- Witness for C4: a concrete evaluation step over `ℚ` succeeds, and the
frame theorem applies to it. -/
theorem test_step_frame_witness :
    (wM.test_step (fun v => v) ([0], [0]) [0] = .ok (wM2, (-(1 / 2), 0, -(1 / 2)))) ∧
    (wM2.encoder = wM.encoder ∧ wM2.decoder = wM.decoder ∧
     wM2.encode_len = wM.encode_len ∧ wM2.decode_len = wM.decode_len ∧
     wM2.feat_dim = wM.feat_dim ∧ wM2.latent_dim = wM.latent_dim ∧
     wM2.reconstruction_wt = wM.reconstruction_wt) :=
  ⟨wM_test_step_eval,
   test_step_frame (fun v => v) wM wM2 ([0], [0]) [0] _ wM_test_step_eval⟩

/-- C5: `call X` is deterministic: it uses only the encoder's first output
`z_mean` (the sampling noise does not affect the result, and neither does the
log-variance network) and decodes `z_mean` directly, so for fixed parameters
two calls of `call` on the same `X` return identical output. -/
theorem call_deterministic_uses_mean (expf : α → α)
    (M : BaseVariationalAutoencoder α) (enc : Encoder α)
    (dec : List α → Tensor α) (lv : List α → List α)
    (hE : M.encoder = some enc) (hD : M.decoder = some dec) (X eps eps' : List α) :
    M.call expf X eps = M.call expf X eps' ∧
    M.call expf X eps =
      (if (dec (enc.meanNet X)).shape.length = 1 then
        .ok ⟨[1, (dec (enc.meanNet X)).data.length], (dec (enc.meanNet X)).data⟩
      else .ok (dec (enc.meanNet X))) ∧
    ({ M with encoder := some ⟨enc.meanNet, lv⟩ } :
        BaseVariationalAutoencoder α).call expf X eps = M.call expf X eps := by
  simp only [BaseVariationalAutoencoder.call, hE, hD, Encoder.run]
  exact ⟨trivial, trivial, trivial⟩

/-- Witness for C5: the determinism theorem applied to the concrete model
`wM` at the input `[0]` and two distinct noise draws. -/
theorem call_deterministic_uses_mean_witness :
    (wM.encoder = some wEnc) ∧ (wM.decoder = some wDec) ∧
    (wM.call (fun v => v) [0] [0] = wM.call (fun v => v) [0] [1]) :=
  ⟨rfl, rfl,
   (call_deterministic_uses_mean (fun v => v) wM wEnc wDec wEnc.logVarNet
     rfl rfl [0] [0] [1]).1⟩

/-- C7: If the decoder output inside `call X` has rank 1, `call` normalizes it
to a batch of shape `[1, n]` holding all `n` elements in one row before
returning; for decoder outputs of any other rank, `call` returns the decoder
output unchanged. -/
theorem call_rank_one_reshape (expf : α → α)
    (M : BaseVariationalAutoencoder α) (enc : Encoder α)
    (dec : List α → Tensor α)
    (hE : M.encoder = some enc) (hD : M.decoder = some dec) (X eps : List α) :
    ((dec (enc.meanNet X)).shape.length = 1 →
      M.call expf X eps =
        .ok ⟨[1, (dec (enc.meanNet X)).data.length], (dec (enc.meanNet X)).data⟩) ∧
    ((dec (enc.meanNet X)).shape.length ≠ 1 →
      M.call expf X eps = .ok (dec (enc.meanNet X))) := by
  constructor
  · intro h1
    simp only [BaseVariationalAutoencoder.call, hE, hD, Encoder.run]
    rw [if_pos h1]
  · intro h1
    simp only [BaseVariationalAutoencoder.call, hE, hD, Encoder.run]
    rw [if_neg h1]

/-- Witness for C7: the concrete decoder `wDec` yields a rank-1 tensor, and
`call` on the concrete model returns it reshaped to `[1, 1]`. -/
theorem call_rank_one_reshape_witness :
    (wM.encoder = some wEnc) ∧ (wM.decoder = some wDec) ∧
    ((wDec (wEnc.meanNet [0])).shape.length = 1) ∧
    (wM.call (fun v => v) [0] [0] = .ok ⟨[1, 1], [0]⟩) :=
  ⟨rfl, rfl, rfl,
   (call_rank_one_reshape (fun v => v) wM wEnc wDec rfl rfl [0] [0]).1 rfl⟩

/-- C8: Constructing a model whose concrete subclass does not implement both
the encoder-builder and the decoder-builder extension points fails at
construction time with a `TypeError` (no model object is produced, so no step
can ever run on it), while implementing both lets construction succeed. -/
theorem construct_requires_builders (hd he : Bool) (el dl fd ld : Nat) (wt : α) :
    construct false hd el dl fd ld wt
      = (.error "TypeError: cannot instantiate abstract class"
          : Except String (BaseVariationalAutoencoder α)) ∧
    construct he false el dl fd ld wt
      = (.error "TypeError: cannot instantiate abstract class"
          : Except String (BaseVariationalAutoencoder α)) ∧
    construct true true el dl fd ld wt
      = .ok (BaseVariationalAutoencoder.mk0 el dl fd ld wt) := by
  refine ⟨rfl, ?_, rfl⟩
  cases he <;> rfl

/-- C10: The base constructor sets the encoder and decoder attributes to
`None` and never invokes the abstract builder methods itself; on any instance
whose encoder and decoder were never assigned after construction, every
invocation of `call`, `train_step`, or `test_step` fails with the
`None`-not-callable `TypeError` rather than returning a result. -/
theorem none_builders_every_invocation_fails (expf : α → α)
    (optStep : α → Encoder α → (List α → Tensor α) → Encoder α × (List α → Tensor α))
    (el dl fd ld : Nat) (wt : α) (X Y eps : List α)
    (M : BaseVariationalAutoencoder α) (hE : M.encoder = none) :
    ((BaseVariationalAutoencoder.mk0 el dl fd ld wt
        : BaseVariationalAutoencoder α).encoder = none) ∧
    ((BaseVariationalAutoencoder.mk0 el dl fd ld wt
        : BaseVariationalAutoencoder α).decoder = none) ∧
    M.call expf X eps = .error noneCallableError ∧
    M.train_step expf optStep (X, Y) eps = .error noneCallableError ∧
    M.test_step expf (X, Y) eps = .error noneCallableError := by
  refine ⟨rfl, rfl, ?_, ?_, ?_⟩ <;>
    simp only [BaseVariationalAutoencoder.call,
      BaseVariationalAutoencoder.train_step,
      BaseVariationalAutoencoder.test_step, hE]

/-- Witness for C10: the freshly constructed model itself has `encoder = none`,
and every invocation on it fails. -/
theorem none_builders_every_invocation_fails_witness :
    ((BaseVariationalAutoencoder.mk0 1 1 1 1 (5 : ℚ)).encoder = none) ∧
    ((BaseVariationalAutoencoder.mk0 1 1 1 1 (5 : ℚ)).call (fun v => v) [0] [0]
       = .error noneCallableError) ∧
    ((BaseVariationalAutoencoder.mk0 1 1 1 1 (5 : ℚ)).train_step (fun v => v) wOpt
       ([0], [0]) [0] = .error noneCallableError) ∧
    ((BaseVariationalAutoencoder.mk0 1 1 1 1 (5 : ℚ)).test_step (fun v => v)
       ([0], [0]) [0] = .error noneCallableError) :=
  ⟨rfl,
   (none_builders_every_invocation_fails (fun v => v) wOpt 1 1 1 1 5 [0] [0] [0]
      (BaseVariationalAutoencoder.mk0 1 1 1 1 5) rfl).2.2.1,
   (none_builders_every_invocation_fails (fun v => v) wOpt 1 1 1 1 5 [0] [0] [0]
      (BaseVariationalAutoencoder.mk0 1 1 1 1 5) rfl).2.2.2.1,
   (none_builders_every_invocation_fails (fun v => v) wOpt 1 1 1 1 5 [0] [0] [0]
      (BaseVariationalAutoencoder.mk0 1 1 1 1 5) rfl).2.2.2.2⟩

/-- C9: The training step and the evaluation step update the same three
running-mean tracker fields (total, reconstruction, kl) by a pure
`update` (add the value, increment the count) and never reset them; the
snapshots each step returns are the trackers' running means over all updates
since the last external reset, so an evaluation snapshot mixes contributions
from any preceding training steps. -/
theorem steps_accumulate_shared_trackers (expf : α → α)
    (optStep : α → Encoder α → (List α → Tensor α) → Encoder α × (List α → Tensor α))
    (M : BaseVariationalAutoencoder α) (enc : Encoder α) (dec : List α → Tensor α)
    (hE : M.encoder = some enc) (hD : M.decoder = some dec)
    (data : List α × List α) (eps : List α) :
    (∀ M' out, M.train_step expf optStep data eps = .ok (M', out) →
      M'.total_loss_tracker
          = M.total_loss_tracker.update
              (train_step_losses expf M.reconstruction_wt enc dec data.1 data.2 eps).1 ∧
      M'.reconstruction_loss_tracker
          = M.reconstruction_loss_tracker.update
              (train_step_losses expf M.reconstruction_wt enc dec data.1 data.2 eps).2.1 ∧
      M'.kl_loss_tracker
          = M.kl_loss_tracker.update
              (train_step_losses expf M.reconstruction_wt enc dec data.1 data.2 eps).2.2 ∧
      out = (M'.total_loss_tracker.result, M'.reconstruction_loss_tracker.result,
             M'.kl_loss_tracker.result)) ∧
    (∀ M' out, M.test_step expf data eps = .ok (M', out) →
      M'.total_loss_tracker
          = M.total_loss_tracker.update
              (test_step_losses expf M.reconstruction_wt enc dec data.1 data.2 eps).1 ∧
      M'.reconstruction_loss_tracker
          = M.reconstruction_loss_tracker.update
              (test_step_losses expf M.reconstruction_wt enc dec data.1 data.2 eps).2.1 ∧
      M'.kl_loss_tracker
          = M.kl_loss_tracker.update
              (test_step_losses expf M.reconstruction_wt enc dec data.1 data.2 eps).2.2 ∧
      out = (M'.total_loss_tracker.result, M'.reconstruction_loss_tracker.result,
             M'.kl_loss_tracker.result)) ∧
    (∀ (t : MeanTracker α) (v : α),
      (t.update v).total = t.total + v ∧ (t.update v).count = t.count + 1 ∧
      (t.update v).result = (t.total + v) / ((t.count : α) + 1)) := by
  refine ⟨?_, ?_, ?_⟩
  · intro M' out h
    rw [BaseVariationalAutoencoder.train_step, hE, hD] at h
    simp only [Except.ok.injEq, Prod.mk.injEq] at h
    obtain ⟨h1, h2⟩ := h
    subst h1
    subst h2
    exact ⟨rfl, rfl, rfl, rfl⟩
  · intro M' out h
    rw [BaseVariationalAutoencoder.test_step, hE, hD] at h
    simp only [Except.ok.injEq, Prod.mk.injEq] at h
    obtain ⟨h1, h2⟩ := h
    subst h1
    subst h2
    exact ⟨rfl, rfl, rfl, rfl⟩
  · intro t v
    refine ⟨rfl, rfl, ?_⟩
    simp only [MeanTracker.update, MeanTracker.result]
    push_cast
    ring_nf

/-- The evaluation of one concrete `train_step` of `wM` on the zero batch,
with the identity optimizer step. -/
theorem wM_train_step_eval :
    wM.train_step (fun v => v) wOpt ([0], [0]) [0]
      = .ok (wM2, (-(1 / 2), 0, -(1 / 2))) := by
  simp only [wM, wEnc, wDec, wM2, wOpt, BaseVariationalAutoencoder.mk0,
    BaseVariationalAutoencoder.train_step, train_step_losses, Encoder.run,
    reparameterize, squared_difference, kl_tensor, reduce_mean,
    MeanTracker.update, MeanTracker.result, List.zipWith, List.sum_cons,
    List.sum_nil, List.length_cons, List.length_nil, Except.ok.injEq,
    Prod.mk.injEq]
  norm_num

/-- Witness for C9: the accumulation theorem applied to one concrete training
step of `wM` over `ℚ`. -/
theorem steps_accumulate_shared_trackers_witness :
    (wM.encoder = some wEnc) ∧ (wM.decoder = some wDec) ∧
    (wM.train_step (fun v => v) wOpt ([0], [0]) [0]
       = .ok (wM2, (-(1 / 2), 0, -(1 / 2)))) ∧
    (wM2.total_loss_tracker
       = wM.total_loss_tracker.update
           (train_step_losses (fun v => v) wM.reconstruction_wt wEnc wDec
             [0] [0] [0]).1) ∧
    ((-(1 / 2 : ℚ), (0 : ℚ), -(1 / 2 : ℚ))
       = (wM2.total_loss_tracker.result, wM2.reconstruction_loss_tracker.result,
          wM2.kl_loss_tracker.result)) :=
  ⟨rfl, rfl, wM_train_step_eval,
   ((steps_accumulate_shared_trackers (fun v => v) wOpt wM wEnc wDec rfl rfl
       ([0], [0]) [0]).1 wM2 _ wM_train_step_eval).1,
   ((steps_accumulate_shared_trackers (fun v => v) wOpt wM wEnc wDec rfl rfl
       ([0], [0]) [0]).1 wM2 _ wM_train_step_eval).2.2.2⟩

/-! ### The sign of the KL loss (with the genuine exponential) -/

lemma kl_tensor_nil_left (expf : α → α) (v : List α) : kl_tensor expf [] v = [] := rfl

lemma kl_tensor_nil_right (expf : α → α) (m : List α) : kl_tensor expf m [] = [] := by
  cases m <;> rfl

lemma kl_tensor_cons (expf : α → α) (a b : α) (ms vs : List α) :
    kl_tensor expf (a :: ms) (b :: vs)
      = -(1 / 2 : α) * (1 + b - a ^ 2 - expf b) :: kl_tensor expf ms vs := rfl

lemma kl_tensor_length (expf : α → α) (m v : List α) :
    (kl_tensor expf m v).length = min m.length v.length := by
  simp [kl_tensor]

lemma kl_term_nonneg (m v : ℝ) :
    0 ≤ -(1 / 2 : ℝ) * (1 + v - m ^ 2 - Real.exp v) := by
  nlinarith [Real.add_one_le_exp v, sq_nonneg m]

lemma kl_term_eq_zero_iff (m v : ℝ) :
    -(1 / 2 : ℝ) * (1 + v - m ^ 2 - Real.exp v) = 0 ↔ m = 0 ∧ v = 0 := by
  constructor
  · intro h
    have h0 : 1 + v - m ^ 2 - Real.exp v = 0 := by
      rcases mul_eq_zero.mp h with h' | h'
      · norm_num at h'
      · exact h'
    have hm2 : m ^ 2 = 0 := by
      nlinarith [Real.add_one_le_exp v, sq_nonneg m]
    have hv : v = 0 := by
      by_contra hv
      nlinarith [Real.add_one_lt_exp hv]
    exact ⟨sq_eq_zero_iff.mp hm2, hv⟩
  · rintro ⟨rfl, rfl⟩
    simp [Real.exp_zero]

lemma kl_tensor_sum_nonneg (m v : List ℝ) : 0 ≤ (kl_tensor Real.exp m v).sum := by
  induction m generalizing v with
  | nil => simp [kl_tensor_nil_left]
  | cons a ms ih =>
    cases v with
    | nil => simp [kl_tensor_nil_right]
    | cons b vs =>
      rw [kl_tensor_cons, List.sum_cons]
      exact add_nonneg (kl_term_nonneg a b) (ih vs)

lemma kl_tensor_sum_eq_zero_iff (m v : List ℝ) (h : m.length = v.length) :
    (kl_tensor Real.exp m v).sum = 0 ↔ (∀ x ∈ m, x = 0) ∧ (∀ x ∈ v, x = 0) := by
  induction m generalizing v with
  | nil =>
    cases v with
    | nil => simp [kl_tensor_nil_left]
    | cons b vs => simp at h
  | cons a ms ih =>
    cases v with
    | nil => simp at h
    | cons b vs =>
      have hlen : ms.length = vs.length := by simpa using h
      rw [kl_tensor_cons, List.sum_cons]
      have hterm := kl_term_nonneg a b
      have htail := kl_tensor_sum_nonneg ms vs
      constructor
      · intro hs
        have ht0 : -(1 / 2 : ℝ) * (1 + b - a ^ 2 - Real.exp b) = 0 := by linarith
        have hs0 : (kl_tensor Real.exp ms vs).sum = 0 := by linarith
        obtain ⟨ha, hb⟩ := (kl_term_eq_zero_iff a b).mp ht0
        obtain ⟨hms, hvs⟩ := (ih vs hlen).mp hs0
        constructor
        · intro x hx
          rcases List.mem_cons.mp hx with rfl | hx'
          · exact ha
          · exact hms x hx'
        · intro x hx
          rcases List.mem_cons.mp hx with rfl | hx'
          · exact hb
          · exact hvs x hx'
      · rintro ⟨hall1, hall2⟩
        have ha : a = 0 := hall1 a (List.mem_cons_self a ms)
        have hb : b = 0 := hall2 b (List.mem_cons_self b vs)
        have h1 : -(1 / 2 : ℝ) * (1 + b - a ^ 2 - Real.exp b) = 0 :=
          (kl_term_eq_zero_iff a b).mpr ⟨ha, hb⟩
        have h2 : (kl_tensor Real.exp ms vs).sum = 0 :=
          (ih vs hlen).mpr ⟨fun x hx => hall1 x (List.mem_cons_of_mem a hx),
                            fun x hx => hall2 x (List.mem_cons_of_mem b hx)⟩
        rw [h1, h2, add_zero]

/-- C6: For every pair of equally-shaped latent tensors (z_mean, z_log_var),
the KL loss computed by the closed form of the step functions — with either
the sum reduction or the mean reduction — is zero if and only if z_mean is
zero and z_log_var is zero elementwise, and is strictly positive otherwise. -/
theorem kl_loss_zero_iff_zero_latents (m v : List ℝ) (h : m.length = v.length) :
    (reduce_sum (kl_tensor Real.exp m v) = 0 ↔
      (∀ x ∈ m, x = 0) ∧ (∀ x ∈ v, x = 0)) ∧
    (¬ ((∀ x ∈ m, x = 0) ∧ (∀ x ∈ v, x = 0)) →
      0 < reduce_sum (kl_tensor Real.exp m v)) ∧
    (reduce_mean (kl_tensor Real.exp m v) = 0 ↔
      (∀ x ∈ m, x = 0) ∧ (∀ x ∈ v, x = 0)) ∧
    (¬ ((∀ x ∈ m, x = 0) ∧ (∀ x ∈ v, x = 0)) →
      0 < reduce_mean (kl_tensor Real.exp m v)) := by
  have hiff := kl_tensor_sum_eq_zero_iff m v h
  have hnn := kl_tensor_sum_nonneg m v
  have hsum_pos : ¬ ((∀ x ∈ m, x = 0) ∧ (∀ x ∈ v, x = 0)) →
      0 < (kl_tensor Real.exp m v).sum := by
    intro hne
    rcases lt_or_eq_of_le hnn with hlt | heq
    · exact hlt
    · exact absurd (hiff.mp heq.symm) hne
  rcases eq_or_ne m [] with rfl | hm
  · have hv : v = [] := by
      cases v with
      | nil => rfl
      | cons b vs => simp at h
    subst hv
    refine ⟨hiff, hsum_pos, ?_, ?_⟩
    · simp [reduce_mean, kl_tensor_nil_left]
    · intro hne
      exact absurd ⟨fun x hx => absurd hx (List.not_mem_nil x),
                    fun x hx => absurd hx (List.not_mem_nil x)⟩ hne
  · have hm' : 0 < m.length := List.length_pos.mpr hm
    have hlenkl : (kl_tensor Real.exp m v).length = m.length := by
      rw [kl_tensor_length, h, Nat.min_self]
    have hklpos : (0 : ℝ) < ((kl_tensor Real.exp m v).length : ℝ) := by
      rw [hlenkl]
      exact_mod_cast hm'
    have hmean : reduce_mean (kl_tensor Real.exp m v)
        = (kl_tensor Real.exp m v).sum / ((kl_tensor Real.exp m v).length : ℝ) := rfl
    refine ⟨hiff, hsum_pos, ?_, ?_⟩
    · rw [hmean, div_eq_zero_iff]
      constructor
      · rintro (h0 | h0)
        · exact hiff.mp h0
        · exact absurd h0 (ne_of_gt hklpos)
      · intro hz
        exact Or.inl (hiff.mpr hz)
    · intro hne
      rw [hmean]
      exact div_pos (hsum_pos hne) hklpos

/-- Witness for C6: the KL-sign theorem applied at the concrete latents
`z_mean = [1]`, `z_log_var = [0]`. -/
theorem kl_loss_zero_iff_zero_latents_witness :
    ([(1 : ℝ)].length = [(0 : ℝ)].length) ∧
    ((reduce_sum (kl_tensor Real.exp [(1 : ℝ)] [(0 : ℝ)]) = 0 ↔
       (∀ x ∈ [(1 : ℝ)], x = 0) ∧ (∀ x ∈ [(0 : ℝ)], x = 0)) ∧
     (¬ ((∀ x ∈ [(1 : ℝ)], x = 0) ∧ (∀ x ∈ [(0 : ℝ)], x = 0)) →
       0 < reduce_sum (kl_tensor Real.exp [(1 : ℝ)] [(0 : ℝ)])) ∧
     (reduce_mean (kl_tensor Real.exp [(1 : ℝ)] [(0 : ℝ)]) = 0 ↔
       (∀ x ∈ [(1 : ℝ)], x = 0) ∧ (∀ x ∈ [(0 : ℝ)], x = 0)) ∧
     (¬ ((∀ x ∈ [(1 : ℝ)], x = 0) ∧ (∀ x ∈ [(0 : ℝ)], x = 0)) →
       0 < reduce_mean (kl_tensor Real.exp [(1 : ℝ)] [(0 : ℝ)]))) :=
  ⟨rfl, kl_loss_zero_iff_zero_latents [1] [0] rfl⟩

end VaeBase
